import Mathlib

/-!
Formal model of the networking runtime in source/simpleGENetworking.py:
the length-prefixed TCP framing (NetUtils.send_object_over_tcp,
NetUtils.receive_object_over_tcp, NetUtils.receive_all_bytes), the Server
state machine (game_state, client_map, clients_tcp and the per-connection
session threads), the client handshake and fast UDP listener (Client), the
per-frame scene contract (NetworkScene.process) and LAN discovery
(LANDiscoveryService._process_packet).

Modelling conventions: opaque string atoms of the source (game ids,
client ids, host names, ip addresses) are modelled as natural numbers;
pickled Python values are modelled by the inductive type PyObj together
with an executable self-describing serializer pdumps/ploads standing in
for pickle.dumps/pickle.loads (the source treats pickled payloads as
opaque byte strings, so any injective self-describing code is a faithful
model of the framing layer).  Bytes are natural numbers.  Wall-clock
times are natural numbers of seconds.
-/

set_option maxHeartbeats 1000000

namespace SimpleGENet

/-- Opaque client identifier (uuid4 string in the source, modelled as an atom). -/
abbrev ClientId := Nat

/-- Opaque ip address atom. -/
abbrev Ip := Nat

/-- An (ip, port) endpoint, as returned by recvfrom. -/
abbrev Addr := Ip × Nat

/-- Opaque handle for one accepted TCP stream. -/
abbrev Sock := Nat

/-- Opaque game identifier atom. -/
abbrev GameId := Nat

/-- DISCONNECT_TIMEOUT = 5.0 seconds (simpleGENetworking.py line 34). -/
def DISCONNECT_TIMEOUT : Nat := 5

/-- Model of a picklable Python value: the None/scalar/pair fragment, which
is enough to represent the nested tuples, lists and dicts the framework
sends (a dict or list is a right-nested chain of pairs ended by pyNone). -/
inductive PyObj where
  | pyNone : PyObj
  | pyNat : Nat → PyObj
  | pyPair : PyObj → PyObj → PyObj
deriving DecidableEq, Repr

/-- Self-delimiting encoding of a natural number: n ones followed by a zero. -/
def natEnc (n : Nat) : List Nat := List.replicate n 1 ++ [0]

/-- Model of pickle.dumps: a tag byte followed by the encoded fields.
Every encoding is nonempty and prefix-free, like a real pickle stream. -/
def pdumps : PyObj → List Nat
  | .pyNone => [0]
  | .pyNat n => 1 :: natEnc n
  | .pyPair a b => 2 :: (pdumps a ++ pdumps b)

/-- Fuel-bounded decoder for natEnc; returns the value and the unread rest. -/
def decNat : Nat → List Nat → Option (Nat × List Nat)
  | 0, _ => none
  | _ + 1, 0 :: rest => some (0, rest)
  | fuel + 1, 1 :: rest =>
      match decNat fuel rest with
      | some (n, r) => some (n + 1, r)
      | none => none
  | _ + 1, _ => none

/-- Fuel-bounded decoder for pdumps; returns the object and the unread rest. -/
def ploadsAux : Nat → List Nat → Option (PyObj × List Nat)
  | 0, _ => none
  | _ + 1, [] => none
  | _ + 1, 0 :: rest => some (.pyNone, rest)
  | fuel + 1, 1 :: rest =>
      match decNat fuel rest with
      | some (n, r) => some (.pyNat n, r)
      | none => none
  | fuel + 1, 2 :: rest =>
      match ploadsAux fuel rest with
      | some (a, r1) =>
          match ploadsAux fuel r1 with
          | some (b, r2) => some (.pyPair a b, r2)
          | none => none
      | none => none
  | _ + 1, _ :: _ => none

/-- Model of pickle.loads: decode one object from the byte string, failing
(UnpicklingError, modelled as none) on malformed input. -/
def ploads (bs : List Nat) : Option PyObj :=
  match ploadsAux bs.length bs with
  | some (o, _) => some o
  | none => none

/-- Big-endian 4-byte encoding of a length, as produced by
struct.pack of format >I (simpleGENetworking.py line 65). -/
def be32 (L : Nat) : List Nat :=
  [L / 16777216 % 256, L / 65536 % 256, L / 256 % 256, L % 256]

/-- Big-endian 4-byte decoding, as computed by struct.unpack of
format >I (simpleGENetworking.py line 84). -/
def unbe32 (bs : List Nat) : Nat :=
  match bs with
  | [a, b, c, d] => ((a * 256 + b) * 256 + c) * 256 + d
  | _ => 0

/-- Model of NetUtils.send_object_over_tcp (lines 53-68): pickle the object
and prepend its 4-byte big-endian length.  Returns the bytes put on the
wire; none models the struct.error raised when the pickle exceeds 2^32-1
bytes and hence no frame is produced. -/
def send_object_over_tcp (o : PyObj) : Option (List Nat) :=
  if (pdumps o).length < 4294967296 then some (be32 (pdumps o).length ++ pdumps o)
  else none

/-- Model of NetUtils.receive_all_bytes (lines 96-107).  The TCP stream is
modelled as the list of byte chunks successive recv calls deliver; recv
returns at most the head chunk, the loop keeps reading until the request
is filled.  An empty chunk models a 0-byte read, i.e. a closed stream,
and makes the function return none exactly as the source returns None.
Returns the bytes read together with the not-yet-consumed stream. -/
def recvAll : Nat → List (List Nat) → Option (List Nat × List (List Nat))
  | 0, cs => some ([], cs)
  | _ + 1, [] => none
  | n + 1, c :: cs =>
      if c = [] then none
      else if c.length ≤ n + 1 then
        match recvAll (n + 1 - c.length) cs with
        | some (more, left) => some (c ++ more, left)
        | none => none
      else some (c.take (n + 1), c.drop (n + 1) :: cs)

/-- Model of NetUtils.receive_object_over_tcp (lines 70-94): read exactly 4
bytes, decode the big-endian length L, read exactly L bytes, unpickle.
The empty-payload check mirrors the falsiness test on the data read. -/
def receive_object_over_tcp (chunks : List (List Nat)) : Option PyObj :=
  match recvAll 4 chunks with
  | none => none
  | some (raw, rest) =>
      let msglen := unbe32 raw
      match recvAll msglen rest with
      | none => none
      | some (data, _) => if data = [] then none else ploads data

/-- Look up one key of a Python dict modelled as an association list (the
first binding wins; keys are unique in any list built by the model). -/
def lookupA {α : Type} : List (Nat × α) → Nat → Option α
  | [], _ => none
  | (a, b) :: t, k => if k = a then some b else lookupA t k

/-- Update one key of a Python dict modelled as an association list with
distinct keys: replace the binding in place if the key is present
(preserving insertion order), otherwise append at the end, exactly like
assignment to a dict item. -/
def setAssoc {α : Type} (l : List (Nat × α)) (k : Nat) (v : α) : List (Nat × α) :=
  match l with
  | [] => [(k, v)]
  | (k', v') :: t => if k' = k then (k, v) :: t else (k', v') :: setAssoc t k v

/-- Delete one key of a Python dict modelled as an association list, like
the del statement on a dict item. -/
def delAssoc {α : Type} (l : List (Nat × α)) (k : Nat) : List (Nat × α) :=
  l.filter (fun p => decide (p.1 ≠ k))

/-- Shared mutable state of a Server (simpleGENetworking.py lines 242-252)
together with the bookkeeping the model needs: sessions lists the
per-connection handler threads that are past a successful handshake
(each with the stream and the client id it generated), and closed lists
the streams that have been closed. -/
structure ServerState where
  game_state : List (ClientId × PyObj)
  client_map : List (ClientId × Addr)
  clients_tcp : List Sock
  sessions : List (Sock × ClientId)
  closed : List Sock
deriving DecidableEq, Repr

/-- Server state right after construction: all three dictionaries empty. -/
def initialServer : ServerState := ⟨[], [], [], [], []⟩

/-- Embed the game_state dict as a picklable value for broadcasting. -/
def stateToObj : List (ClientId × PyObj) → PyObj
  | [] => .pyNone
  | (k, v) :: t => .pyPair (.pyPair (.pyNat k) v) (stateToObj t)

/-- Model of Server._process_client_packet followed by the
Server._broadcast_udp_state call it makes (lines 292-324), for a datagram
that unpickled to the pair (cid, payload) from sender address addr.
Under the lock: register the sender address in client_map only if cid is
absent, then write game_state[cid] := payload.  Then broadcast: if
client_map is empty return, otherwise serialize the game_state snapshot
once and send that same byte string to every endpoint in client_map.
Returns the new state and the list of (endpoint, bytes) datagrams sent. -/
def processDatagram (s : ServerState) (cid : ClientId) (payload : PyObj) (addr : Addr) :
    ServerState × List (Addr × List Nat) :=
  let cm := if (lookupA s.client_map cid).isSome then s.client_map
            else s.client_map ++ [(cid, addr)]
  let gs := setAssoc s.game_state cid payload
  let s' : ServerState := { s with client_map := cm, game_state := gs }
  let sends := if s'.client_map = [] then []
               else s'.client_map.map (fun p => (p.2, pdumps (stateToObj s'.game_state)))
  (s', sends)

/-- Atomic events of a server run, each one critical section of the source:
accept is the post-handshake registration in Server._handle_client_tcp
(lines 336-344), reject is the close on a failed handshake (lines 331-333),
udpPacket is one well-formed datagram through Server._process_client_packet
plus its broadcast, udpMalformed is a datagram whose unpickling failed,
and teardown is the finally block of Server._handle_client_tcp
(lines 355-362). -/
inductive ServerEvent where
  | accept (sock : Sock) (cid : ClientId)
  | reject (sock : Sock)
  | udpPacket (cid : ClientId) (payload : PyObj) (addr : Addr)
  | udpMalformed
  | teardown (sock : Sock) (cid : ClientId)
deriving DecidableEq, Repr

/-- One observable transition of the server.  Each event's effect is the
body of one mutex-protected critical section of the source, so states
before and after a serverStep are exactly the observable moments. -/
def serverStep (s : ServerState) (e : ServerEvent) : ServerState :=
  match e with
  | .accept sock cid =>
      { s with clients_tcp := s.clients_tcp ++ [sock],
               sessions := s.sessions ++ [(sock, cid)] }
  | .reject sock => { s with closed := s.closed ++ [sock] }
  | .udpPacket cid payload addr => (processDatagram s cid payload addr).1
  | .udpMalformed => s
  | .teardown sock cid =>
      { s with clients_tcp := s.clients_tcp.erase sock,
               game_state := delAssoc s.game_state cid,
               client_map := delAssoc s.client_map cid,
               sessions := s.sessions.filter (fun p => decide (p ≠ (sock, cid))),
               closed := s.closed ++ [sock] }

/-- Server states reachable from construction by interleavings of the
acceptor, the per-session handlers and the fast receiver.  An accept uses
a stream handle that is not currently registered, and a teardown is
performed by a live session handler for its own stream and id. -/
inductive Reachable : ServerState → Prop
  | init : Reachable initialServer
  | accept (s : ServerState) (sock : Sock) (cid : ClientId) :
      Reachable s → sock ∉ s.clients_tcp → Reachable (serverStep s (.accept sock cid))
  | reject (s : ServerState) (sock : Sock) :
      Reachable s → Reachable (serverStep s (.reject sock))
  | udpPacket (s : ServerState) (cid : ClientId) (payload : PyObj) (addr : Addr) :
      Reachable s → Reachable (serverStep s (.udpPacket cid payload addr))
  | udpMalformed (s : ServerState) :
      Reachable s → Reachable (serverStep s .udpMalformed)
  | teardown (s : ServerState) (sock : Sock) (cid : ClientId) :
      Reachable s → (sock, cid) ∈ s.sessions → Reachable (serverStep s (.teardown sock cid))

/-- Message sent by the server on a reliable stream: either the
id_assignment dict of Server._handle_client_tcp (lines 340-344) or some
other decoded object (used on the client side for unexpected responses). -/
inductive ServerMsg where
  | idAssignment (id : ClientId) (udpPort : Nat)
  | other (v : PyObj)
deriving DecidableEq, Repr

/-- Result of the handshake phase of Server._handle_client_tcp: the frames
sent on the stream, the id assigned to the connection, and whether the
stream was closed immediately. -/
structure HandshakeOutcome where
  sent : List ServerMsg
  assignedId : Option ClientId
  closedNow : Bool
deriving DecidableEq, Repr

/-- Model of the handshake phase of Server._handle_client_tcp
(lines 326-344).  The received handshake is none when the framed read
failed or the stream closed (receive_object_over_tcp returned None);
otherwise it carries the game_id field of the decoded dict (none when the
key is absent; a falsy empty dict also reaches the reject branch and has
no game_id field, so its outcome is identical).  On mismatch the stream
is closed with nothing sent; on match the fresh uuid4 id is assigned,
the stream is registered and the id_assignment frame is sent. -/
def handleHandshakePhase (serverGameId : GameId) (udpPort : Nat)
    (handshake : Option (Option GameId)) (freshId : ClientId) : HandshakeOutcome :=
  match handshake with
  | none => ⟨[], none, true⟩
  | some g =>
      if g = some serverGameId then ⟨[.idAssignment freshId udpPort], some freshId, false⟩
      else ⟨[], none, true⟩

/-- Client-side state touched by the fast UDP listener
(simpleGENetworking.py lines 483-495 and 535-575).  The aggregated state
received from the server is a dict from client ids to payloads. -/
structure ClientNetState where
  latest_state : List (ClientId × PyObj)
  last_packet_time : Nat
  connected : Bool
  running : Bool
deriving DecidableEq, Repr

/-- Events observed by one iteration of the Client._listen_udp loop: a
datagram arriving at time t (with the result of unpickling it: none for
a malformed datagram), the 1-second socket timeout firing at time t, or
a fatal socket error. -/
inductive UdpEvent where
  | datagram (t : Nat) (decoded : Option (List (ClientId × PyObj)))
  | timeout (t : Nat)
  | sockError
deriving DecidableEq, Repr

/-- Model of Client._handle_udp_packet (lines 559-567): the heartbeat
timestamp last_packet_time is set to the arrival time before unpickling
is attempted, so it is refreshed by every received datagram; only a
well-formed datagram additionally overwrites latest_state. -/
def clientHandleUdpPacket (c : ClientNetState) (t : Nat)
    (decoded : Option (List (ClientId × PyObj))) : ClientNetState :=
  let c1 := { c with last_packet_time := t }
  match decoded with
  | some v => { c1 with latest_state := v }
  | none => c1

/-- Model of Client._handle_timeout (lines 569-575): on a socket timeout at
time t, drop connected exactly when more than DISCONNECT_TIMEOUT seconds
have passed since the last received datagram. -/
def clientHandleTimeout (c : ClientNetState) (t : Nat) : ClientNetState :=
  if t - c.last_packet_time > DISCONNECT_TIMEOUT then { c with connected := false } else c

/-- One iteration of the Client._listen_udp loop (lines 545-557); the loop
body only runs while running and connected both hold. -/
def clientUdpStep (c : ClientNetState) (e : UdpEvent) : ClientNetState :=
  if c.running && c.connected then
    match e with
    | .datagram t d => clientHandleUdpPacket c t d
    | .timeout t => clientHandleTimeout c t
    | .sockError => { c with connected := false }
  else c

/-- Run the fast listener over a sequence of events. -/
def runListener (c : ClientNetState) (events : List UdpEvent) : ClientNetState :=
  events.foldl clientUdpStep c

/-- Full client-side record, the fields of Client.__init__
(lines 483-495). -/
structure PyClient where
  id : Option ClientId
  server_udp_port : Option Nat
  latest_state : List (ClientId × PyObj)
  running : Bool
  connected : Bool
  last_packet_time : Nat
deriving DecidableEq, Repr

/-- Model of Client.__init__ (lines 483-524).  The fields are initialized
before the connection attempt; connectOk is false when the TCP connect or
handshake raised (the except path, which clears running); response is the
framed reply read after sending the handshake, and only an id_assignment
reply sets id, server_udp_port and connected. -/
def clientInit (t0 : Nat) (connectOk : Bool) (response : Option ServerMsg) : PyClient :=
  let base : PyClient := ⟨none, none, [], true, false, t0⟩
  if connectOk then
    match response with
    | some (.idAssignment cid port) =>
        { base with id := some cid, server_udp_port := some port, connected := true }
    | _ => base
  else { base with running := false }

/-- Model of Client.get_latest_state (lines 588-589): under the lock,
return a copy of latest_state.  In state-passing form it returns the
snapshot together with the unchanged client. -/
def get_latest_state (c : PyClient) : List (ClientId × PyObj) × PyClient :=
  (c.latest_state, c)

/-- Calls a NetworkScene makes during one process frame, in order:
the disconnect hook, reading the client's latest state, the
handle_network_state hook, the get_local_state hook, and pushing a
payload through Client.send_update. -/
inductive SceneEvent where
  | onServerDisconnect
  | getLatestState
  | handleNetworkState (st : List (ClientId × PyObj))
  | getLocalState
  | sendUpdate (d : PyObj)
deriving DecidableEq, Repr

/-- The part of the client a NetworkScene observes during process. -/
structure SceneClientView where
  id : Option ClientId
  connected : Bool
  latest_state : List (ClientId × PyObj)
deriving DecidableEq, Repr

/-- Events classified as receive-side work of a frame. -/
def isRecvEvent : SceneEvent → Bool
  | .getLatestState => true
  | .handleNetworkState _ => true
  | _ => false

/-- Events classified as send-side work of a frame. -/
def isSendEvent : SceneEvent → Bool
  | .getLocalState => true
  | .sendUpdate _ => true
  | _ => false

/-- Model of NetworkScene._update_from_network (lines 404-411): nothing
without a client; otherwise read the latest state and hand it to
handle_network_state only when it is nonempty (an empty dict is falsy). -/
def updateFromNetwork : Option SceneClientView → List SceneEvent
  | none => []
  | some c =>
      .getLatestState ::
        (if c.latest_state = [] then [] else [.handleNetworkState c.latest_state])

/-- Model of NetworkScene._send_local_state (lines 417-422): only when a
client exists and its id is assigned, call get_local_state and push a
non-None result via send_update; localData is that call's return value. -/
def sendLocalState (client : Option SceneClientView) (localData : Option PyObj) :
    List SceneEvent :=
  match client with
  | none => []
  | some c =>
      if c.id.isSome then
        .getLocalState :: (match localData with | some d => [.sendUpdate d] | none => [])
      else []

/-- Model of NetworkScene.process (lines 395-402): if a client exists and
is not connected, invoke on_server_disconnect and return; otherwise do
the receive phase then the send phase. -/
def sceneProcess (client : Option SceneClientView) (localData : Option PyObj) :
    List SceneEvent :=
  match client with
  | some c =>
      if c.connected then updateFromNetwork client ++ sendLocalState client localData
      else [.onServerDisconnect]
  | none => updateFromNetwork none ++ sendLocalState none localData

/-- Decoded discovery broadcast payload, a dict whose fields are read with
get and may therefore be absent (LANDiscoveryService._process_packet). -/
structure DiscoveryMsg where
  game_id : Option GameId
  host_name : Option Nat
  tcp_port : Option Nat
deriving DecidableEq, Repr

/-- Host record built by LANDiscoveryService._process_packet
(lines 206-211). -/
structure HostInfo where
  name : Nat
  ip : Ip
  tcp_port : Option Nat
  game_id : Option GameId
deriving DecidableEq, Repr

/-- Model of LANDiscoveryService._process_packet (lines 202-216) applied to
one datagram: none models an undecodable payload (the except path).  A
decoded announcement is kept only when its game_id equals the target, and
only when no already-discovered host has the same (ip, tcp_port). -/
def discProcessPacket (target : GameId) (hosts : List HostInfo)
    (pkt : Option DiscoveryMsg × Addr) : List HostInfo :=
  match pkt.1 with
  | none => hosts
  | some m =>
      if m.game_id = some target then
        let hi : HostInfo := ⟨m.host_name.getD pkt.2.1, pkt.2.1, m.tcp_port, m.game_id⟩
        if hosts.any (fun h => decide (h.ip = hi.ip ∧ h.tcp_port = hi.tcp_port)) then hosts
        else hosts ++ [hi]
      else hosts

/-- Model of one find_games call (lines 167-200): process, in order, every
datagram received before the deadline, starting from no discovered hosts. -/
def findGames (target : GameId) (pkts : List (Option DiscoveryMsg × Addr)) :
    List HostInfo :=
  pkts.foldl (discProcessPacket target) []

/-! Lemmas about the serializer and the framing layer. -/

theorem decNat_natEnc : ∀ (n fuel : Nat) (rest : List Nat), n + 1 ≤ fuel →
    decNat fuel (natEnc n ++ rest) = some (n, rest) := by
  intro n
  induction n with
  | zero =>
      intro fuel rest h
      obtain ⟨f, rfl⟩ : ∃ f, fuel = f + 1 := ⟨fuel - 1, by omega⟩
      simp [natEnc, decNat]
  | succ n ih =>
      intro fuel rest h
      obtain ⟨f, rfl⟩ : ∃ f, fuel = f + 1 := ⟨fuel - 1, by omega⟩
      have h1 : natEnc (n + 1) ++ rest = 1 :: (natEnc n ++ rest) := by
        simp [natEnc, List.replicate_succ]
      rw [h1]
      simp [decNat, ih f rest (by omega)]

theorem ploadsAux_pdumps : ∀ (o : PyObj) (fuel : Nat) (rest : List Nat),
    (pdumps o).length ≤ fuel →
    ploadsAux fuel (pdumps o ++ rest) = some (o, rest) := by
  intro o
  induction o with
  | pyNone =>
      intro fuel rest h
      simp [pdumps] at h
      obtain ⟨f, rfl⟩ : ∃ f, fuel = f + 1 := ⟨fuel - 1, by omega⟩
      simp [pdumps, ploadsAux]
  | pyNat n =>
      intro fuel rest h
      simp [pdumps, natEnc] at h
      obtain ⟨f, rfl⟩ : ∃ f, fuel = f + 1 := ⟨fuel - 1, by omega⟩
      have h1 : pdumps (.pyNat n) ++ rest = 1 :: (natEnc n ++ rest) := by simp [pdumps]
      rw [h1]
      simp [ploadsAux, decNat_natEnc n f rest (by omega)]
  | pyPair a b iha ihb =>
      intro fuel rest h
      simp [pdumps] at h
      obtain ⟨f, rfl⟩ : ∃ f, fuel = f + 1 := ⟨fuel - 1, by omega⟩
      have h1 : pdumps (.pyPair a b) ++ rest = 2 :: (pdumps a ++ (pdumps b ++ rest)) := by
        simp [pdumps]
      rw [h1]
      simp [ploadsAux, iha f (pdumps b ++ rest) (by omega), ihb f rest (by omega)]

theorem ploads_pdumps (o : PyObj) : ploads (pdumps o) = some o := by
  have h := ploadsAux_pdumps o (pdumps o).length [] (le_refl _)
  rw [List.append_nil] at h
  simp [ploads, h]

theorem pdumps_ne_nil (o : PyObj) : pdumps o ≠ [] := by
  cases o <;> simp [pdumps]

theorem unbe32_be32 (L : Nat) (h : L < 4294967296) : unbe32 (be32 L) = L := by
  simp [be32, unbe32]
  omega

theorem recvAll_spec : ∀ (chunks : List (List Nat)) (n : Nat),
    (∀ c ∈ chunks, c ≠ []) → n ≤ chunks.flatten.length →
    ∃ left, recvAll n chunks = some (chunks.flatten.take n, left) ∧
      left.flatten = chunks.flatten.drop n ∧ ∀ c ∈ left, c ≠ [] := by
  intro chunks
  induction chunks with
  | nil =>
      intro n hne hlen
      simp at hlen
      subst hlen
      exact ⟨[], by simp [recvAll]⟩
  | cons c cs ih =>
      intro n hne hlen
      have hc : c ≠ [] := hne c (List.mem_cons_self c cs)
      have hcs : ∀ c' ∈ cs, c' ≠ [] := fun c' hm => hne c' (List.mem_cons_of_mem c hm)
      match n with
      | 0 => exact ⟨c :: cs, by simp [recvAll], by simp, hne⟩
      | m + 1 =>
          have hjl : (c :: cs).flatten.length = c.length + cs.flatten.length := by
            simp [List.flatten_cons]
          by_cases hle : c.length ≤ m + 1
          · obtain ⟨left, h1, h2, h3⟩ := ih (m + 1 - c.length) hcs (by omega)
            refine ⟨left, ?_, ?_, h3⟩
            · have hstep : recvAll (m + 1) (c :: cs) =
                  some (c ++ cs.flatten.take (m + 1 - c.length), left) := by
                simp [recvAll, hc, hle, h1]
              rw [hstep]
              have : ((c :: cs).flatten).take (m + 1) = c ++ cs.flatten.take (m + 1 - c.length) := by
                simp [List.flatten_cons, List.take_append_eq_append_take,
                  List.take_of_length_le hle]
              rw [this]
            · have : ((c :: cs).flatten).drop (m + 1) = cs.flatten.drop (m + 1 - c.length) := by
                simp [List.flatten_cons, List.drop_append_eq_append_drop,
                  List.drop_eq_nil_of_le hle]
              rw [this, h2]
          · push_neg at hle
            refine ⟨c.drop (m + 1) :: cs, ?_, ?_, ?_⟩
            · have hstep : recvAll (m + 1) (c :: cs) =
                  some (c.take (m + 1), c.drop (m + 1) :: cs) := by
                simp [recvAll, hc]
                omega
              rw [hstep]
              have : ((c :: cs).flatten).take (m + 1) = c.take (m + 1) := by
                simp [List.flatten_cons, List.take_append_of_le_length (by omega : m + 1 ≤ c.length)]
              rw [this]
            · simp [List.flatten_cons, List.drop_append_of_le_length (by omega : m + 1 ≤ c.length)]
            · intro c' hm
              rcases List.mem_cons.mp hm with h | h
              · subst h
                intro hnil
                have := congrArg List.length hnil
                simp at this
                omega
              · exact hcs c' h

/-- C7: the reliable-channel framing round-trips.  For every serializable
object, encoding it as a 4-byte big-endian unsigned length L followed by
the L serialized bytes and decoding by reading exactly 4 bytes and then
exactly L bytes yields the original object, for every way the underlying
stream delivers the frame in partial chunks (the receiver loops until
each read is complete or the stream closes). -/
theorem tcp_framing_roundtrip (o : PyObj) (wire : List Nat) (chunks : List (List Nat))
    (hsend : send_object_over_tcp o = some wire)
    (hchunks : ∀ c ∈ chunks, c ≠ [])
    (hjoin : chunks.flatten = wire) :
    receive_object_over_tcp chunks = some o := by
  unfold send_object_over_tcp at hsend
  split at hsend
  case isFalse => exact absurd hsend (by simp)
  case isTrue hlt =>
    have hwire : wire = be32 (pdumps o).length ++ pdumps o := by
      exact (Option.some.injEq _ _ ▸ hsend).symm
    rw [hwire] at hjoin
    have hlen4 : 4 ≤ chunks.flatten.length := by
      rw [hjoin]
      simp [be32]
    obtain ⟨left, r1, r2, r3⟩ := recvAll_spec chunks 4 hchunks hlen4
    have hb4 : (be32 (pdumps o).length).length = 4 := rfl
    have htake : chunks.flatten.take 4 = be32 (pdumps o).length := by
      rw [hjoin, ← hb4, List.take_left]
    have hdrop : chunks.flatten.drop 4 = pdumps o := by
      rw [hjoin, ← hb4, List.drop_left]
    rw [htake] at r1
    rw [hdrop] at r2
    have hlen2 : (pdumps o).length ≤ left.flatten.length := by rw [r2]
    obtain ⟨left2, q1, q2, q3⟩ := recvAll_spec left (pdumps o).length r3 hlen2
    rw [r2, List.take_length] at q1
    rw [receive_object_over_tcp, r1]
    simp only [unbe32_be32 (pdumps o).length hlt, q1]
    simp [pdumps_ne_nil o, ploads_pdumps o]

/-- Witness for C7 at a concrete object and a concrete odd chunking. -/
def c7Obj : PyObj := .pyPair (.pyNat 1) .pyNone

/-- Concrete chunked stream carrying the frame of c7Obj. -/
def c7Chunks : List (List Nat) := [[0, 0], [0, 5, 2], [1], [1, 0, 0]]

theorem tcp_framing_roundtrip_witness :
    receive_object_over_tcp c7Chunks = some c7Obj :=
  tcp_framing_roundtrip c7Obj [0, 0, 0, 5, 2, 1, 1, 0, 0] c7Chunks
    (by decide) (by decide) (by decide)

/-! Lemmas about the association-list model of Python dicts. -/

theorem lookupA_setAssoc_self {α : Type} (l : List (Nat × α)) (k : Nat) (v : α) :
    lookupA (setAssoc l k v) k = some v := by
  induction l with
  | nil => simp [setAssoc, lookupA]
  | cons p t ih =>
      obtain ⟨a, b⟩ := p
      by_cases h : a = k
      · subst h
        simp [setAssoc, lookupA]
      · simp [setAssoc, h, lookupA, Ne.symm h, ih]

theorem lookupA_setAssoc_ne {α : Type} (l : List (Nat × α)) (k k' : Nat) (v : α)
    (h : k' ≠ k) : lookupA (setAssoc l k v) k' = lookupA l k' := by
  induction l with
  | nil => simp [setAssoc, lookupA, h]
  | cons p t ih =>
      obtain ⟨a, b⟩ := p
      by_cases ha : a = k
      · subst ha
        simp [setAssoc, lookupA, h]
      · by_cases hk : k' = a
        · simp [setAssoc, ha, lookupA, hk]
        · simp [setAssoc, ha, lookupA, hk, ih]

theorem lookupA_delAssoc {α : Type} (l : List (Nat × α)) (k k' : Nat) :
    lookupA (delAssoc l k) k' = if k' = k then none else lookupA l k' := by
  induction l with
  | nil => simp [delAssoc, lookupA]
  | cons p t ih =>
      obtain ⟨a, b⟩ := p
      by_cases ha : a = k
      · subst ha
        by_cases hk : k' = a
        · simpa [delAssoc, List.filter, lookupA, hk] using ih
        · simpa [delAssoc, List.filter, lookupA, hk] using ih
      · by_cases hk : k' = a
        · subst hk
          simp [delAssoc, List.filter, lookupA, ha, Ne.symm ha]
        · simpa [delAssoc, List.filter, lookupA, ha, hk] using ih

theorem lookupA_append_some {α : Type} (l l' : List (Nat × α)) (k : Nat) (v : α)
    (h : lookupA l k = some v) : lookupA (l ++ l') k = some v := by
  induction l with
  | nil => simp [lookupA] at h
  | cons p t ih =>
      obtain ⟨a, b⟩ := p
      by_cases hk : k = a
      · subst hk
        simp [lookupA] at h ⊢
        exact h
      · simp [lookupA, hk] at h ⊢
        exact ih h

theorem lookupA_append_none {α : Type} (l l' : List (Nat × α)) (k : Nat)
    (h : lookupA l k = none) : lookupA (l ++ l') k = lookupA l' k := by
  induction l with
  | nil => simp [lookupA]
  | cons p t ih =>
      obtain ⟨a, b⟩ := p
      by_cases hk : k = a
      · subst hk
        simp [lookupA] at h
      · simp [lookupA, hk] at h ⊢
        exact ih h

theorem mem_keys_iff_lookupA {α : Type} (l : List (Nat × α)) (k : Nat) :
    k ∈ l.map Prod.fst ↔ (lookupA l k).isSome := by
  induction l with
  | nil => simp [lookupA]
  | cons p t ih =>
      obtain ⟨a, b⟩ := p
      by_cases hk : k = a
      · subst hk
        simp [lookupA]
      · simp [lookupA, hk, ih]

theorem mem_keys_setAssoc {α : Type} (l : List (Nat × α)) (k k' : Nat) (v : α) :
    k' ∈ (setAssoc l k v).map Prod.fst ↔ k' ∈ l.map Prod.fst ∨ k' = k := by
  induction l with
  | nil => simp [setAssoc]
  | cons p t ih =>
      obtain ⟨a, b⟩ := p
      by_cases ha : a = k
      · subst ha
        simp [setAssoc]
        tauto
      · simp [setAssoc, ha, ih]
        tauto

theorem mem_keys_append_single {α : Type} (l : List (Nat × α)) (k c : Nat) (a : α) :
    k ∈ (l ++ [(c, a)]).map Prod.fst ↔ k ∈ l.map Prod.fst ∨ k = c := by
  simp [List.map_append]

theorem mem_keys_delAssoc {α : Type} (l : List (Nat × α)) (k k' : Nat) :
    k' ∈ (delAssoc l k).map Prod.fst ↔ k' ∈ l.map Prod.fst ∧ k' ≠ k := by
  simp only [delAssoc, List.mem_map, List.mem_filter]
  constructor
  · rintro ⟨⟨a, b⟩, ⟨hm, hd⟩, rfl⟩
    exact ⟨⟨(a, b), hm, rfl⟩, by simpa using hd⟩
  · rintro ⟨⟨⟨a, b⟩, hm, rfl⟩, hne⟩
    exact ⟨(a, b), ⟨hm, by simpa using hne⟩, rfl⟩

/-! Projection lemmas for the server step. -/

theorem processDatagram_game_state (s : ServerState) (cid : ClientId) (payload : PyObj)
    (addr : Addr) :
    (processDatagram s cid payload addr).1.game_state = setAssoc s.game_state cid payload := rfl

theorem processDatagram_client_map (s : ServerState) (cid : ClientId) (payload : PyObj)
    (addr : Addr) :
    (processDatagram s cid payload addr).1.client_map =
      if (lookupA s.client_map cid).isSome then s.client_map
      else s.client_map ++ [(cid, addr)] := rfl

theorem processDatagram_clients_tcp (s : ServerState) (cid : ClientId) (payload : PyObj)
    (addr : Addr) :
    (processDatagram s cid payload addr).1.clients_tcp = s.clients_tcp := rfl

theorem processDatagram_sessions (s : ServerState) (cid : ClientId) (payload : PyObj)
    (addr : Addr) :
    (processDatagram s cid payload addr).1.sessions = s.sessions := rfl

theorem processDatagram_sends (s : ServerState) (cid : ClientId) (payload : PyObj)
    (addr : Addr) :
    (processDatagram s cid payload addr).2 =
      if (processDatagram s cid payload addr).1.client_map = [] then []
      else (processDatagram s cid payload addr).1.client_map.map
        (fun p => (p.2, pdumps (stateToObj (processDatagram s cid payload addr).1.game_state))) :=
  rfl

/-- Accepted streams are pairwise distinct in every reachable state;
needed because the teardown of the source removes the stream from the
clients_tcp list with list.remove, which drops one occurrence. -/
theorem reachable_clients_tcp_nodup {s : ServerState} (h : Reachable s) :
    s.clients_tcp.Nodup := by
  induction h with
  | init => simp [initialServer]
  | accept s sock cid hr hfresh ih =>
      simp [serverStep, List.nodup_append, ih, hfresh]
  | reject s sock hr ih => simpa [serverStep] using ih
  | udpPacket s cid payload addr hr ih =>
      simpa [serverStep, processDatagram_clients_tcp] using ih
  | udpMalformed s hr ih => simpa [serverStep] using ih
  | teardown s sock cid hr hm ih =>
      simp only [serverStep]
      exact ih.erase sock

/-- C2 amended: at every observable moment of a server run, the key set of
game_state is a subset of the key set of client_map.  (The claim's further
inclusion into the ids of live handshook sessions fails on the code: the
fast receiver registers any id carried by a well-formed datagram without
consulting the sessions; see the counterexample.) -/
theorem game_state_keys_subset_client_map {s : ServerState} (h : Reachable s) :
    ∀ cid, cid ∈ s.game_state.map Prod.fst → cid ∈ s.client_map.map Prod.fst := by
  induction h with
  | init =>
      intro cid hc
      simp [initialServer] at hc
  | accept s sock cid hr hfresh ih => simpa [serverStep] using ih
  | reject s sock hr ih => simpa [serverStep] using ih
  | udpPacket s cid payload addr hr ih =>
      intro k hk
      have hk' : k ∈ (setAssoc s.game_state cid payload).map Prod.fst := by
        simpa [serverStep, processDatagram_game_state] using hk
      show k ∈ (processDatagram s cid payload addr).1.client_map.map Prod.fst
      rw [processDatagram_client_map]
      rcases (mem_keys_setAssoc _ _ _ _).mp hk' with h1 | h1
      · have hm := ih k h1
        by_cases hc : (lookupA s.client_map cid).isSome
        · rw [if_pos hc]
          exact hm
        · rw [if_neg hc]
          exact (mem_keys_append_single _ _ _ _).mpr (Or.inl hm)
      · subst h1
        by_cases hc : (lookupA s.client_map k).isSome
        · rw [if_pos hc]
          exact (mem_keys_iff_lookupA _ _).mpr hc
        · rw [if_neg hc]
          exact (mem_keys_append_single _ _ _ _).mpr (Or.inr rfl)
  | udpMalformed s hr ih => simpa [serverStep] using ih
  | teardown s sock cid hr hm ih =>
      intro k hk
      have hk' : k ∈ (delAssoc s.game_state cid).map Prod.fst := by
        simpa [serverStep] using hk
      rcases (mem_keys_delAssoc _ _ _).mp hk' with ⟨h1, h2⟩
      show k ∈ (serverStep s (.teardown sock cid)).client_map.map Prod.fst
      simp only [serverStep]
      exact (mem_keys_delAssoc _ _ _).mpr ⟨ih k h1, h2⟩

/-- Reachable server state in which client id 7 is tracked although no
session is live: a single well-formed datagram claiming id 7 was
processed before any handshake. -/
def c2State : ServerState := serverStep initialServer (.udpPacket 7 .pyNone (1, 2))

/-- C2 counterexample: a reachable server state whose game_state and
client_map contain a client id while the set of live handshook sessions
is empty, refuting both claimed inclusions into the live sessions;
precisely the id appears in game_state with no live reliable session. -/
theorem state_session_subset_counterexample :
    Reachable c2State ∧ 7 ∈ c2State.game_state.map Prod.fst ∧
      7 ∈ c2State.client_map.map Prod.fst ∧ c2State.sessions = [] := by
  refine ⟨Reachable.udpPacket initialServer 7 .pyNone (1, 2) Reachable.init, ?_, ?_, rfl⟩ <;>
    decide

/-- Witness for the amended C2 theorem at the concrete reachable state. -/
theorem game_state_keys_subset_client_map_witness :
    7 ∈ c2State.client_map.map Prod.fst :=
  game_state_keys_subset_client_map
    (Reachable.udpPacket initialServer 7 .pyNone (1, 2) Reachable.init) 7 (by decide)

/-- C3: for every well-formed unreliable datagram (cid, payload) the fast
receiver processes, the server afterwards sends to every endpoint
registered in client_map one identical serialized snapshot of game_state,
and in that snapshot the entry for cid equals payload. -/
theorem broadcast_faithfulness (s : ServerState) (cid : ClientId) (payload : PyObj)
    (addr : Addr) :
    lookupA (processDatagram s cid payload addr).1.game_state cid = some payload ∧
    (processDatagram s cid payload addr).2 =
      (processDatagram s cid payload addr).1.client_map.map
        (fun p => (p.2, pdumps (stateToObj (processDatagram s cid payload addr).1.game_state))) := by
  constructor
  · rw [processDatagram_game_state]
    exact lookupA_setAssoc_self _ _ _
  · rw [processDatagram_sends]
    split
    next h => rw [h]; rfl
    next h => rfl

/-- Reachable server state holding one live session (stream 3, id 7). -/
def c5State : ServerState := serverStep initialServer (.accept 3 7)

/-- C5: the teardown block of the per-connection handler is a single
critical section (one transition of serverStep, hence atomic with respect
to the fast receiver and the broadcast, which are other transitions);
after it the client id is gone from game_state and client_map, the stream
is gone from clients_tcp, and the stream is closed. -/
theorem session_teardown_cleanup (s : ServerState) (sock : Sock) (cid : ClientId)
    (h : Reachable s) :
    cid ∉ (serverStep s (.teardown sock cid)).game_state.map Prod.fst ∧
    cid ∉ (serverStep s (.teardown sock cid)).client_map.map Prod.fst ∧
    sock ∉ (serverStep s (.teardown sock cid)).clients_tcp ∧
    sock ∈ (serverStep s (.teardown sock cid)).closed := by
  refine ⟨?_, ?_, ?_, ?_⟩
  · intro hk
    have hk' : cid ∈ (delAssoc s.game_state cid).map Prod.fst := by
      simpa [serverStep] using hk
    exact ((mem_keys_delAssoc _ _ _).mp hk').2 rfl
  · intro hk
    have hk' : cid ∈ (delAssoc s.client_map cid).map Prod.fst := by
      simpa [serverStep] using hk
    exact ((mem_keys_delAssoc _ _ _).mp hk').2 rfl
  · have hnd := reachable_clients_tcp_nodup h
    simp only [serverStep]
    exact hnd.not_mem_erase
  · simp [serverStep]

/-- Witness for C5 at the concrete state with one live session. -/
theorem session_teardown_cleanup_witness :
    7 ∉ (serverStep c5State (.teardown 3 7)).game_state.map Prod.fst ∧
    7 ∉ (serverStep c5State (.teardown 3 7)).client_map.map Prod.fst ∧
    3 ∉ (serverStep c5State (.teardown 3 7)).clients_tcp ∧
    3 ∈ (serverStep c5State (.teardown 3 7)).closed :=
  session_teardown_cleanup c5State 3 7
    (Reachable.accept initialServer 3 7 Reachable.init (by decide))

/-- C6: a client id is registered in client_map only by the first
well-formed datagram bearing that id, with the datagram's sender address
as its endpoint; every later event except the teardown of that very id,
in particular every later datagram bearing the same id from any sender
address, leaves the recorded endpoint unchanged. -/
theorem client_map_endpoint_stability :
    (∀ (s : ServerState) (cid : ClientId) (payload : PyObj) (addr : Addr),
        lookupA s.client_map cid = none →
        lookupA (serverStep s (.udpPacket cid payload addr)).client_map cid = some addr) ∧
    (∀ (s : ServerState) (e : ServerEvent) (cid : ClientId) (a : Addr),
        lookupA s.client_map cid = some a →
        (∀ sock, e ≠ .teardown sock cid) →
        lookupA (serverStep s e).client_map cid = some a) ∧
    (∀ (s : ServerState) (e : ServerEvent) (cid : ClientId),
        lookupA s.client_map cid = none →
        (lookupA (serverStep s e).client_map cid).isSome = true →
        ∃ payload addr, e = .udpPacket cid payload addr ∧
          lookupA (serverStep s e).client_map cid = some addr) := by
  refine ⟨?_, ?_, ?_⟩
  · intro s cid payload addr hnone
    show lookupA (processDatagram s cid payload addr).1.client_map cid = some addr
    rw [processDatagram_client_map]
    simp only [hnone, Option.isSome_none, Bool.false_eq_true, if_false]
    rw [lookupA_append_none _ _ _ hnone]
    simp [lookupA]
  · intro s e cid a hsome hne
    cases e with
    | accept sock cid' => simpa [serverStep] using hsome
    | reject sock => simpa [serverStep] using hsome
    | udpPacket cid' payload addr =>
        show lookupA (processDatagram s cid' payload addr).1.client_map cid = some a
        rw [processDatagram_client_map]
        split
        · exact hsome
        · exact lookupA_append_some _ _ _ _ hsome
    | udpMalformed => simpa [serverStep] using hsome
    | teardown sock cid' =>
        have hcid : cid ≠ cid' := by
          intro heq
          exact hne sock (by rw [heq])
        have : lookupA (delAssoc s.client_map cid') cid = some a := by
          rw [lookupA_delAssoc]
          simp [hcid, hsome]
        simpa [serverStep] using this
  · intro s e cid hnone hsome
    cases e with
    | accept sock cid' =>
        rw [show (serverStep s (.accept sock cid')).client_map = s.client_map from rfl,
          hnone] at hsome
        simp at hsome
    | reject sock =>
        rw [show (serverStep s (.reject sock)).client_map = s.client_map from rfl,
          hnone] at hsome
        simp at hsome
    | udpPacket cid' payload addr =>
        by_cases hc : cid' = cid
        · subst hc
          refine ⟨payload, addr, rfl, ?_⟩
          show lookupA (processDatagram s cid' payload addr).1.client_map cid' = some addr
          rw [processDatagram_client_map]
          simp only [hnone, Option.isSome_none, Bool.false_eq_true, if_false]
          rw [lookupA_append_none _ _ _ hnone]
          simp [lookupA]
        · exfalso
          have : lookupA (serverStep s (.udpPacket cid' payload addr)).client_map cid = none := by
            show lookupA (processDatagram s cid' payload addr).1.client_map cid = none
            rw [processDatagram_client_map]
            split
            · exact hnone
            · rw [lookupA_append_none _ _ _ hnone]
              simp [lookupA, Ne.symm hc]
          rw [this] at hsome
          simp at hsome
    | udpMalformed =>
        rw [show (serverStep s .udpMalformed).client_map = s.client_map from rfl,
          hnone] at hsome
        simp at hsome
    | teardown sock cid' =>
        exfalso
        have : lookupA (serverStep s (.teardown sock cid')).client_map cid = none := by
          show lookupA (delAssoc s.client_map cid') cid = none
          rw [lookupA_delAssoc]
          split
          · rfl
          · exact hnone
        rw [this] at hsome
        simp at hsome

/-- Witness for C6: the first datagram bearing id 7 registers its sender
endpoint, and a later datagram with the same id from a different address
leaves it unchanged. -/
theorem client_map_endpoint_stability_witness :
    lookupA (serverStep initialServer (.udpPacket 7 .pyNone (1, 2))).client_map 7 =
      some (1, 2) ∧
    lookupA (serverStep (serverStep initialServer (.udpPacket 7 .pyNone (1, 2)))
        (.udpPacket 7 (.pyNat 4) (9, 9))).client_map 7 = some (1, 2) :=
  ⟨client_map_endpoint_stability.1 initialServer 7 .pyNone (1, 2) rfl,
    client_map_endpoint_stability.2.1 (serverStep initialServer (.udpPacket 7 .pyNone (1, 2)))
      (.udpPacket 7 (.pyNat 4) (9, 9)) 7 (1, 2) (by decide) (by intro sock h; cases h)⟩

/-- C4: every reliable connection whose first framed handshake object is
missing, fails to decode, or carries a game_id different from the
server's is closed without an id_assignment frame ever being sent and
without a client id being assigned to the connection. -/
theorem handshake_gating (sid : GameId) (port : Nat) (h : Option (Option GameId))
    (fid : ClientId)
    (hbad : h = none ∨ ∃ g, h = some g ∧ g ≠ some sid) :
    handleHandshakePhase sid port h fid = ⟨[], none, true⟩ := by
  rcases hbad with rfl | ⟨g, rfl, hg⟩
  · rfl
  · simp [handleHandshakePhase, hg]

/-- Witness for C4 at a concrete mismatched handshake. -/
theorem handshake_gating_witness :
    handleHandshakePhase 1 5 (some (some 2)) 9 = ⟨[], none, true⟩ :=
  handshake_gating 1 5 (some (some 2)) 9 (Or.inr ⟨some 2, rfl, by decide⟩)

/-- Listener trace in which every received datagram is malformed, spanning
more than DISCONNECT_TIMEOUT seconds, ending in a socket-timeout check. -/
def c1Trace : List UdpEvent :=
  [.datagram 1 none, .datagram 2 none, .datagram 3 none, .datagram 4 none,
   .datagram 5 none, .datagram 6 none, .datagram 7 none, .timeout 8]

/-- Tests whether a listener event is a datagram whose payload decoded. -/
def isWellFormedDatagram : UdpEvent → Bool
  | .datagram _ (some _) => true
  | _ => false

/-- C1 counterexample: a fast-listener run that starts connected at time 0,
receives only malformed datagrams through time 7 and hits the
receive-loop timeout at time 8 (so more than DISCONNECT_TIMEOUT seconds
pass without any well-formed datagram), yet connected remains true,
because Client._handle_udp_packet refreshes last_packet_time before
attempting to unpickle, so malformed datagrams also count as heartbeats. -/
theorem heartbeat_wellformed_counterexample :
    c1Trace.all (fun e => !isWellFormedDatagram e) = true ∧
    (runListener ⟨[], 0, true, true⟩ c1Trace).connected = true := by
  constructor <;> decide

/-- C1 amended: every received datagram, well-formed or malformed,
refreshes the heartbeat timestamp; connected becomes false on the next
receive-loop timeout check exactly when more than DISCONNECT_TIMEOUT
seconds have passed since the last datagram of any kind, and is left
unchanged by a timeout check inside the window. -/
theorem heartbeat_disconnect_amended :
    (∀ (c : ClientNetState) (t : Nat) (d : Option (List (ClientId × PyObj))),
        c.running = true → c.connected = true →
        (clientUdpStep c (.datagram t d)).last_packet_time = t) ∧
    (∀ (c : ClientNetState) (t : Nat),
        c.running = true → c.connected = true →
        t - c.last_packet_time > DISCONNECT_TIMEOUT →
        (clientUdpStep c (.timeout t)).connected = false) ∧
    (∀ (c : ClientNetState) (t : Nat),
        c.running = true → c.connected = true →
        t - c.last_packet_time ≤ DISCONNECT_TIMEOUT →
        clientUdpStep c (.timeout t) = c) := by
  refine ⟨?_, ?_, ?_⟩
  · intro c t d hr hc
    cases d <;> simp [clientUdpStep, hr, hc, clientHandleUdpPacket]
  · intro c t hr hc ht
    simp [clientUdpStep, hr, hc, clientHandleTimeout, ht]
  · intro c t hr hc ht
    simp [clientUdpStep, hr, hc, clientHandleTimeout, Nat.not_lt.mpr ht]

/-- Witness for the amended C1 theorem: a timeout check 6 seconds after the
last datagram flips connected to false. -/
theorem heartbeat_disconnect_amended_witness :
    (clientUdpStep ⟨[], 0, true, true⟩ (.timeout 6)).connected = false :=
  heartbeat_disconnect_amended.2.1 ⟨[], 0, true, true⟩ 6 rfl rfl (by decide)

/-- C8: per-frame contract of NetworkScene.process.  With a client present
and disconnected the frame performs exactly the on_server_disconnect
hook, with no receive and no send.  Otherwise the frame is the receive
phase followed by the send phase: the latest state is handed to
handle_network_state exactly when it is nonempty, and, with the id
assigned (which in the source client always holds once connected is
true), the non-None result of get_local_state is pushed via send_update. -/
theorem scene_process_contract :
    (∀ (c : SceneClientView) (localData : Option PyObj),
        c.connected = false →
        sceneProcess (some c) localData = [.onServerDisconnect]) ∧
    (∀ (c : SceneClientView) (localData : Option PyObj) (st : List (ClientId × PyObj)),
        c.connected = true →
        (SceneEvent.handleNetworkState st ∈ sceneProcess (some c) localData ↔
          st = c.latest_state ∧ c.latest_state ≠ [])) ∧
    (∀ (c : SceneClientView) (localData : Option PyObj) (d : PyObj),
        c.connected = true → c.id.isSome = true →
        (SceneEvent.sendUpdate d ∈ sceneProcess (some c) localData ↔
          localData = some d)) ∧
    (∀ (c : SceneClientView) (localData : Option PyObj),
        c.connected = true →
        sceneProcess (some c) localData =
          updateFromNetwork (some c) ++ sendLocalState (some c) localData ∧
        (∀ e ∈ updateFromNetwork (some c), isRecvEvent e = true) ∧
        (∀ e ∈ sendLocalState (some c) localData, isSendEvent e = true)) := by
  refine ⟨?_, ?_, ?_, ?_⟩
  · intro c localData hc
    simp [sceneProcess, hc]
  · intro c localData st hc
    by_cases hl : c.latest_state = [] <;>
      rcases hi : c.id with _ | cid <;> rcases localData with _ | d <;>
        simp [sceneProcess, hc, updateFromNetwork, sendLocalState, hl, hi]
  · intro c localData d hc hi
    rcases hid : c.id with _ | cid
    · rw [hid] at hi
      simp at hi
    · by_cases hl : c.latest_state = [] <;> rcases localData with _ | d' <;>
        simp [sceneProcess, hc, updateFromNetwork, sendLocalState, hl, hid] <;>
          tauto
  · intro c localData hc
    refine ⟨by simp [sceneProcess, hc], ?_, ?_⟩
    · intro e he
      rcases hl : c.latest_state with _ | _
      · simp [updateFromNetwork, hl] at he
        simp [he, isRecvEvent]
      · simp [updateFromNetwork, hl] at he
        rcases he with rfl | rfl <;> simp [isRecvEvent]
    · intro e he
      rcases hid : c.id with _ | cid
      · simp [sendLocalState, hid] at he
      · rcases localData with _ | d <;> simp [sendLocalState, hid] at he
        · simp [he, isSendEvent]
        · rcases he with rfl | rfl <;> simp [isSendEvent]

/-- Witness for C8 at a concrete connected client with pending state. -/
theorem scene_process_contract_witness :
    sceneProcess (some ⟨some 7, true, [(7, .pyNat 1)]⟩) (some (.pyNat 2)) =
      updateFromNetwork (some ⟨some 7, true, [(7, .pyNat 1)]⟩) ++
        sendLocalState (some ⟨some 7, true, [(7, .pyNat 1)]⟩) (some (.pyNat 2)) :=
  ((scene_process_contract.2.2.2 ⟨some 7, true, [(7, .pyNat 1)]⟩
    (some (.pyNat 2)) rfl).1)

/-- Membership in the accumulated discovery list after a fold. -/
theorem discProcessPacket_mem (target : GameId) (acc : List HostInfo)
    (p : Option DiscoveryMsg × Addr) (h : HostInfo)
    (hm : h ∈ discProcessPacket target acc p) :
    h ∈ acc ∨ ∃ m, p.1 = some m ∧ m.game_id = some target ∧
      h = ⟨m.host_name.getD p.2.1, p.2.1, m.tcp_port, m.game_id⟩ := by
  obtain ⟨pd, paddr⟩ := p
  rcases pd with _ | m
  · exact Or.inl (by simpa [discProcessPacket] using hm)
  · simp only [discProcessPacket] at hm
    by_cases hg : m.game_id = some target
    · rw [if_pos hg] at hm
      split at hm
      · exact Or.inl hm
      · rcases List.mem_append.mp hm with h1 | h1
        · exact Or.inl h1
        · right
          exact ⟨m, rfl, hg, by simpa using h1⟩
    · rw [if_neg hg] at hm
      exact Or.inl hm

theorem findGames_aux_mem (target : GameId) :
    ∀ (pkts : List (Option DiscoveryMsg × Addr)) (acc : List HostInfo) (h : HostInfo),
      h ∈ pkts.foldl (discProcessPacket target) acc →
      h ∈ acc ∨ ∃ p ∈ pkts, ∃ m, p.1 = some m ∧ m.game_id = some target ∧
        h = ⟨m.host_name.getD p.2.1, p.2.1, m.tcp_port, m.game_id⟩ := by
  intro pkts
  induction pkts with
  | nil =>
      intro acc h hm
      exact Or.inl hm
  | cons p ps ih =>
      intro acc h hm
      rcases ih (discProcessPacket target acc p) h hm with h1 | ⟨q, hq, m, h2, h3, h4⟩
      · rcases discProcessPacket_mem target acc p h h1 with h2 | ⟨m, h3, h4, h5⟩
        · exact Or.inl h2
        · right
          exact ⟨p, List.mem_cons_self p ps, m, h3, h4, h5⟩
      · right
        exact ⟨q, List.mem_cons_of_mem p hq, m, h2, h3, h4⟩

/-- Processing one packet preserves pairwise distinctness of the
deduplication key (ip, tcp_port). -/
theorem discProcessPacket_pairwise (target : GameId) (acc : List HostInfo)
    (p : Option DiscoveryMsg × Addr)
    (hp : acc.Pairwise (fun h h' => ¬(h.ip = h'.ip ∧ h.tcp_port = h'.tcp_port))) :
    (discProcessPacket target acc p).Pairwise
      (fun h h' => ¬(h.ip = h'.ip ∧ h.tcp_port = h'.tcp_port)) := by
  obtain ⟨pd, paddr⟩ := p
  rcases pd with _ | m
  · exact hp
  · simp only [discProcessPacket]
    by_cases hg : m.game_id = some target
    · rw [if_pos hg]
      split
      · exact hp
      next hany =>
        rw [List.pairwise_append]
        refine ⟨hp, List.pairwise_singleton _ _, ?_⟩
        intro a ha b hb
        have hb' : b = ⟨m.host_name.getD paddr.1, paddr.1, m.tcp_port, m.game_id⟩ := by
          simpa using hb
        subst hb'
        have hany' : (List.any acc fun h =>
            decide (h.ip = paddr.1 ∧ h.tcp_port = m.tcp_port)) = false := by
          simpa using hany
        have := List.any_eq_false.mp hany' a ha
        simpa using this
    · rw [if_neg hg]
      exact hp

theorem findGames_aux_pairwise (target : GameId) :
    ∀ (pkts : List (Option DiscoveryMsg × Addr)) (acc : List HostInfo),
      acc.Pairwise (fun h h' => ¬(h.ip = h'.ip ∧ h.tcp_port = h'.tcp_port)) →
      (pkts.foldl (discProcessPacket target) acc).Pairwise
        (fun h h' => ¬(h.ip = h'.ip ∧ h.tcp_port = h'.tcp_port)) := by
  intro pkts
  induction pkts with
  | nil =>
      intro acc hp
      exact hp
  | cons p ps ih =>
      intro acc hp
      exact ih (discProcessPacket target acc p) (discProcessPacket_pairwise target acc p hp)

/-- C9: the list returned by one find call contains only hosts whose
announcement carried the requested game_id, each recorded with the
datagram's sender ip (and the announced tcp_port and name), and contains
at most one host per (ip, tcp_port) pair however many matching
announcements arrived. -/
theorem discovery_find_contract (target : GameId)
    (pkts : List (Option DiscoveryMsg × Addr)) :
    (∀ h ∈ findGames target pkts, h.game_id = some target ∧
        ∃ p ∈ pkts, ∃ m, p.1 = some m ∧ h.ip = p.2.1 ∧ h.tcp_port = m.tcp_port ∧
          h.name = m.host_name.getD p.2.1) ∧
    (findGames target pkts).Pairwise
      (fun h h' => ¬(h.ip = h'.ip ∧ h.tcp_port = h'.tcp_port)) := by
  constructor
  · intro h hm
    rcases findGames_aux_mem target pkts [] h hm with h1 | ⟨p, hp, m, h2, h3, rfl⟩
    · simp at h1
    · exact ⟨h3, p, hp, m, h2, rfl, rfl, rfl⟩
  · exact findGames_aux_pairwise target pkts [] List.Pairwise.nil

/-- Concrete discovery traffic: two announcements of the same host for the
requested game, one for a different game, one undecodable datagram. -/
def c9Pkts : List (Option DiscoveryMsg × Addr) :=
  [(some ⟨some 5, some 11, some 12345⟩, (100, 40000)),
   (some ⟨some 5, some 11, some 12345⟩, (100, 40001)),
   (some ⟨some 6, some 12, some 2⟩, (101, 40002)),
   (none, (102, 3))]

/-- Witness for C9: the concrete find run is deduplicated on (ip, port). -/
theorem discovery_find_contract_witness :
    (findGames 5 c9Pkts).Pairwise
      (fun h h' => ¬(h.ip = h'.ip ∧ h.tcp_port = h'.tcp_port)) :=
  (discovery_find_contract 5 c9Pkts).2

/-- C10: Client.get_latest_state is total and side-effect-free: it returns
the latest_state dictionary (a snapshot copy, never None) and leaves
every client field unchanged; on every construction path, including a
failed connection and an unexpected handshake response, latest_state
starts as the empty dictionary, so the call returns the empty dictionary
before any state has arrived. -/
theorem get_latest_state_total :
    (∀ c : PyClient,
        (get_latest_state c).1 = c.latest_state ∧ (get_latest_state c).2 = c) ∧
    (∀ (t0 : Nat) (ok : Bool) (resp : Option ServerMsg),
        (clientInit t0 ok resp).latest_state = [] ∧
        (get_latest_state (clientInit t0 ok resp)).1 = []) := by
  refine ⟨fun c => ⟨rfl, rfl⟩, ?_⟩
  intro t0 ok resp
  have h : (clientInit t0 ok resp).latest_state = [] := by
    cases ok
    · rfl
    · rcases resp with _ | msg
      · rfl
      · cases msg <;> rfl
  exact ⟨h, h⟩

end SimpleGENet
